import Mathlib

/-!
Verification of the `agentcy` campaign stage-machine core.

This file is a shallow embedding, in Lean 4, of the orchestration core of the
repository:

* `agentcy/models/stages.py` — the `Stage` enum, `STAGE_ORDER`, `TRANSITIONS`,
  `StageTransitionError`, `next_stage`, `can_transition`, `validate_transition`;
* `agentcy/models/campaign.py` — `StageResult` and `Campaign`;
* `agentcy/controller.py` — `StageExecutionError` and `CampaignController`
  (`compute_inputs_hash`, `is_idempotent`, `advance`, `record_result`,
  `approve_stage`, `run_stage`, `_execute_stage`);
* `agentcy/persistence/sqlite.py` — `CampaignStore.save` / `CampaignStore.load`;
* the human-gate control loop of `archive/agentcy_v2/cli.py` (the
  `GateAction.REGENERATE` branch).

Modelling conventions, used throughout:

* Python `datetime` values are embedded as abstract instants `Nat`; each
  state-mutating operation takes the value of `datetime.now()` as an explicit
  `now` parameter.  `datetime.isoformat` / `datetime.fromisoformat` form a
  library-guaranteed bijection, so datetime-valued database columns hold the
  instant itself.
* Python dicts are embedded as insertion-ordered association lists with
  distinct keys (`dictGet` / `dictSet` mirror `d[k]` lookup and assignment).
* JSON-serialisable payloads (stage artifacts, stage inputs) are embedded as
  values of the inductive type `Json`; `json.loads (json.dumps v)` is the
  identity on that domain, so the database artifact column holds the value.
* Executors (`_run_research`, …) are LLM calls — external collaborators — and
  are a parameter `impl` of the embedded dispatcher; the registration table of
  `CampaignController._execute_stage` is embedded faithfully.
-/

/-! ## `agentcy/models/stages.py` -/

/-- Campaign workflow stages (`class Stage(str, Enum)`). -/
inductive Stage where
  | INTAKE
  | RESEARCH
  | STRATEGY
  | CREATIVE
  | ACTIVATION
  | PACKAGING
  | DONE
deriving DecidableEq, Repr, Fintype

/-- The string value of each enum member. -/
def Stage.value : Stage → String
  | .INTAKE => "intake"
  | .RESEARCH => "research"
  | .STRATEGY => "strategy"
  | .CREATIVE => "creative"
  | .ACTIVATION => "activation"
  | .PACKAGING => "packaging"
  | .DONE => "done"

/-- Ordered stage list (`STAGE_ORDER`). -/
def STAGE_ORDER : List Stage :=
  [.INTAKE, .RESEARCH, .STRATEGY, .CREATIVE, .ACTIVATION, .PACKAGING, .DONE]

/-- Valid transitions: stage -> allowed next stages (`TRANSITIONS`). -/
def TRANSITIONS : Stage → List Stage
  | .INTAKE => [.RESEARCH]
  | .RESEARCH => [.STRATEGY]
  | .STRATEGY => [.CREATIVE]
  | .CREATIVE => [.ACTIVATION]
  | .ACTIVATION => [.PACKAGING]
  | .PACKAGING => [.DONE]
  | .DONE => []

/-- Data of a `StageTransitionError` (the `current` and `target` stored by
`__init__`). -/
structure StageTransitionErr where
  current : Stage
  target : Stage
deriving DecidableEq, Repr

/-- The message built by `StageTransitionError.__init__`:
`f"Cannot transition from {current.value} to {target.value}. Allowed: {allowed_str}"`
where `allowed_str` is the comma-joined values of `TRANSITIONS.get(current, [])`,
or `"none"` when that list is empty. -/
def StageTransitionErr.message (e : StageTransitionErr) : String :=
  let allowed := TRANSITIONS e.current
  let allowedStr :=
    if allowed.isEmpty then "none"
    else String.intercalate ", " (allowed.map Stage.value)
  "Cannot transition from " ++ e.current.value ++ " to " ++ e.target.value ++
    ". Allowed: " ++ allowedStr

/-- `next_stage(current)`: the next stage in `STAGE_ORDER`, or `None` at the
end of the order. -/
def next_stage (current : Stage) : Option Stage :=
  match STAGE_ORDER.indexOf? current with
  | some idx =>
      if idx + 1 < STAGE_ORDER.length then STAGE_ORDER.get? (idx + 1) else none
  | none => none

/-- `can_transition(current, target)`: membership of `target` in
`TRANSITIONS.get(current, [])`. -/
def can_transition (current target : Stage) : Bool :=
  (TRANSITIONS current).contains target

/-- `validate_transition(current, target)`: raises `StageTransitionError` when
the transition is not allowed. -/
def validate_transition (current target : Stage) :
    Except StageTransitionErr Unit :=
  if can_transition current target then Except.ok ()
  else Except.error ⟨current, target⟩

/-! ## JSON payloads

Stage inputs and artifacts are Python values that `json.dumps` can serialise
natively (composites of `dict`/`list`/`str`/`int`/`bool`/`None`; floating
point payloads are outside the scope of this development). -/

/-- A JSON-serialisable Python value.  Objects are insertion-ordered
association lists with distinct keys, as Python dicts are. -/
inductive Json where
  | null
  | bool (b : Bool)
  | num (n : Int)
  | str (s : String)
  | arr (elems : List Json)
  | obj (fields : List (String × Json))

/-- Key comparison used by `json.dumps(..., sort_keys=True)`: object fields are
emitted in ascending key order.  `sorted` in Python is a stable sort; so is
`List.insertionSort`. -/
def sortByKey (l : List (String × String)) : List (String × String) :=
  l.insertionSort (fun a b => a.1 ≤ b.1)

/-- String literal rendering of `json.dumps` (character escaping elided: the
payloads of this development contain no characters needing escapes). -/
def jsonQuote (s : String) : String := "\"" ++ s ++ "\""

mutual

/-- `json.dumps(v, sort_keys=True, default=str)`: canonical serialisation with
object keys sorted at every level. -/
def Json.dumps : Json → String
  | .null => "null"
  | .bool b => cond b "true" "false"
  | .num n => toString n
  | .str s => jsonQuote s
  | .arr elems => "[" ++ String.intercalate ", " (dumpsList elems) ++ "]"
  | .obj fields =>
      "\x7b" ++
        String.intercalate ", "
          ((sortByKey (dumpsFields fields)).map
            (fun kv => jsonQuote kv.1 ++ ": " ++ kv.2)) ++
      "\x7d"

/-- Serialise each array element. -/
def dumpsList : List Json → List String
  | [] => []
  | x :: xs => Json.dumps x :: dumpsList xs

/-- Serialise each object field's value, keeping its key. -/
def dumpsFields : List (String × Json) → List (String × String)
  | [] => []
  | (k, v) :: xs => (k, Json.dumps v) :: dumpsFields xs

end

/-! ## Python dict operations

`dictGet m k` is `m.get(k)`; `dictSet m k v` is `m[k] = v` (replace in place
when the key is present, append otherwise). -/

/-- Dict lookup. -/
def dictGet {α : Type} (m : List (String × α)) (k : String) : Option α :=
  match m with
  | [] => none
  | (k₁, v₁) :: t => if k₁ = k then some v₁ else dictGet t k

/-- Dict assignment. -/
def dictSet {α : Type} (m : List (String × α)) (k : String) (v : α) :
    List (String × α) :=
  match m with
  | [] => [(k, v)]
  | (k₁, v₁) :: t => if k₁ = k then (k, v) :: t else (k₁, v₁) :: dictSet t k v

/-! ## `agentcy/models/campaign.py` -/

/-- Result of a completed stage (`class StageResult(BaseModel)`). -/
structure StageResult where
  stage : Stage
  artifact : Json
  approved : Bool
  approved_at : Option Nat
  inputs_hash : Option String

/-- Campaign state persisted to SQLite (`class Campaign(BaseModel)`).
Money amounts pass through storage unchanged; they are embedded as `Rat`. -/
structure Campaign where
  id : String
  brief : String
  brand_name : Option String
  template : String
  current_stage : Stage
  results : List (String × StageResult)
  created_at : Nat
  updated_at : Nat
  total_tokens : Int
  total_cost_usd : Rat

/-! ## `agentcy/controller.py` -/

/-- Data of a `StageExecutionError` (`stage`, `retryable`, and the message
built by `__init__`). -/
structure StageExecutionErr where
  stage : Stage
  message : String
  retryable : Bool
deriving DecidableEq, Repr

/-- `StageExecutionError.__init__(stage, message, retryable=True)`: stores
`stage` and `retryable` and formats the exception string as
`f"Stage {stage.value} failed: {message}"`.  (The Python default
`retryable=True` is written explicitly at every embedded call site.) -/
def StageExecutionError (stage : Stage) (message : String) (retryable : Bool) :
    StageExecutionErr :=
  ⟨stage, "Stage " ++ stage.value ++ " failed: " ++ message, retryable⟩

/-- An arbitrary Python exception as observed by `run_stage`'s
`except Exception as e` handler: either a `StageExecutionError` raised by
`_execute_stage`, or anything else, of which only `str(e)` is used. -/
inductive PyExn where
  | stageExecution (e : StageExecutionErr)
  | other (message : String)

/-- `str(e)` for an exception caught in `run_stage`. -/
def PyExn.str : PyExn → String
  | .stageExecution e => e.message
  | .other m => m

/-- `CampaignController.get_stage_result`: `self.campaign.results.get(stage.value)`. -/
def get_stage_result (c : Campaign) (stage : Stage) : Option StageResult :=
  dictGet c.results stage.value

/-- `hashlib.sha256(serialized.encode()).hexdigest()[:16]`.  `hashlib` is a
library primitive; it is embedded as a concrete deterministic function of the
serialised string, which is the only property this development relies on. -/
def hexdigest16 (s : String) : String :=
  toString (s.data.foldl (fun h c => (h * 131 + c.toNat) % (2 ^ 64)) 5381)

/-- `CampaignController.compute_inputs_hash`: hash of
`json.dumps(inputs, sort_keys=True, default=str)`. -/
def compute_inputs_hash (inputs : List (String × Json)) : String :=
  hexdigest16 (Json.dumps (Json.obj inputs))

/-- `CampaignController.is_idempotent`: the stage has a result whose
`inputs_hash` equals the fingerprint of `inputs`. -/
def is_idempotent (c : Campaign) (stage : Stage)
    (inputs : List (String × Json)) : Bool :=
  match get_stage_result c stage with
  | none => false
  | some result => decide (result.inputs_hash = some (compute_inputs_hash inputs))

/-- `CampaignController.advance`: advance to the next stage if the current one
is approved.  The returned campaign is the state after the call (the input
campaign itself when an exception propagates, since the code raises before
mutating). -/
def advance (c : Campaign) (now : Nat) :
    Except StageTransitionErr (Option Stage) × Campaign :=
  let current := c.current_stage
  match next_stage current with
  | none => (Except.ok none, c)
  | some target =>
      let notApproved : Bool :=
        if current = Stage.INTAKE then false
        else
          match get_stage_result c current with
          | none => true
          | some result => !result.approved
      if notApproved then (Except.error ⟨current, target⟩, c)
      else
        match validate_transition current target with
        | Except.error e => (Except.error e, c)
        | Except.ok _ =>
            (Except.ok (some target),
              { c with current_stage := target, updated_at := now })

/-- `CampaignController.record_result`: build a `StageResult`, store it under
`stage.value`, stamp `updated_at`.  (The `on_stage_complete` callback is an
external observer and mutates nothing here.) -/
def record_result (c : Campaign) (stage : Stage) (artifact : Json)
    (approved : Bool) (inputs_hash : Option String) (now : Nat) :
    StageResult × Campaign :=
  let result : StageResult :=
    ⟨stage, artifact, approved, if approved then some now else none, inputs_hash⟩
  (result,
    { c with results := dictSet c.results stage.value result, updated_at := now })

/-- `CampaignController.approve_stage`: mark a stage approved; returns `None`
and leaves the campaign unchanged when the stage has no result. -/
def approve_stage (c : Campaign) (stage : Stage) (now : Nat) :
    Option StageResult × Campaign :=
  match get_stage_result c stage with
  | none => (none, c)
  | some result =>
      let result1 := { result with approved := true, approved_at := some now }
      (some result1,
        { c with results := dictSet c.results stage.value result1,
                 updated_at := now })

/-- The keys of the `executors` dict in `CampaignController._execute_stage`. -/
def registeredExecutorStages : List Stage :=
  [.RESEARCH, .STRATEGY, .CREATIVE, .ACTIVATION, .PACKAGING]

/-- The family of per-stage executors (`_run_research`, `_run_strategy`, …):
external LLM-calling collaborators, a parameter of the embedding.  An executor
reads the campaign and the stage inputs and either returns an artifact or
raises. -/
def ExecutorImpl : Type :=
  Stage → Campaign → List (String × Json) → Except PyExn Json

/-- `CampaignController._execute_stage`: dispatch on the registration table;
raise `StageExecutionError(stage, f"No executor for stage {stage.value}",
retryable=False)` when the stage has no registered executor. -/
def _execute_stage (impl : ExecutorImpl) (c : Campaign) (stage : Stage)
    (inputs : List (String × Json)) : Except PyExn Json :=
  if registeredExecutorStages.contains stage then impl stage c inputs
  else
    Except.error (PyExn.stageExecution
      (StageExecutionError stage ("No executor for stage " ++ stage.value) false))

/-- `CampaignController.run_stage`: idempotent replay of a cached artifact when
`is_idempotent` holds (the Pydantic dump/construct round trip performed by
`record_result` / `_deserialize_artifact` is the identity on the embedded
artifact domain); otherwise execute, record the result unapproved with the
inputs fingerprint, and translate any exception into
`StageExecutionError(stage, str(e))` — with the constructor's default
`retryable=True`. -/
def run_stage (impl : ExecutorImpl) (c : Campaign) (stage : Stage)
    (inputs : List (String × Json)) (now : Nat) :
    Except StageExecutionErr (Json × Campaign) :=
  let execute : Unit → Except StageExecutionErr (Json × Campaign) := fun _ =>
    let inputsHash := compute_inputs_hash inputs
    match _execute_stage impl c stage inputs with
    | Except.ok artifact =>
        Except.ok (artifact,
          (record_result c stage artifact false (some inputsHash) now).2)
    | Except.error e =>
        Except.error (StageExecutionError stage (PyExn.str e) true)
  if is_idempotent c stage inputs then
    match get_stage_result c stage with
    | some result => Except.ok (result.artifact, c)
    | none => execute ()
  else execute ()

/-- Number of executor dispatches a `run_stage` call performs from state `c`:
`0` exactly on the cached-replay path (the branch of `run_stage` that returns
before reaching `_execute_stage`), `1` otherwise. -/
def run_stage_invokes (c : Campaign) (stage : Stage)
    (inputs : List (String × Json)) : Nat :=
  if is_idempotent c stage inputs then
    match get_stage_result c stage with
    | some _ => 0
    | none => 1
  else 1

/-- The `GateAction.REGENERATE` branch of the control loop in
`archive/agentcy_v2/cli.py` (lines 128–135): it prints the stage name and the
optional feedback and does nothing else — the campaign is not modified (no
result is removed) and `store.save` is not called. -/
def regenerate_branch (c : Campaign) : Campaign := c

/-! ## `agentcy/persistence/sqlite.py`

The two SQLite tables are embedded as lists of typed rows; `id` is the
primary key of `campaigns` and `(campaign_id, stage)` is unique in
`stage_results`.  Text columns produced by library bijections hold the
decoded value (see the conventions at the top of the file). -/

/-- `Stage(s)`: enum lookup by value (`ValueError` on an unknown value is
embedded as `none`). -/
def stageOfValue (s : String) : Option Stage :=
  STAGE_ORDER.find? (fun st => st.value == s)

/-- A row of the `campaigns` table. -/
structure CampaignRow where
  id : String
  brief : String
  brand_name : Option String
  template : String
  current_stage : String
  total_tokens : Int
  total_cost_usd : Rat
  created_at : Nat
  updated_at : Nat

/-- A row of the `stage_results` table. -/
structure StageRow where
  campaign_id : String
  stage : String
  artifact : Json
  approved : Int
  approved_at : Option Nat
  inputs_hash : Option String
  created_at : Nat

/-- The database state: the two tables. -/
structure Db where
  campaigns : List CampaignRow
  stage_results : List StageRow

/-- The campaign upsert of `CampaignStore.save`:
`INSERT ... ON CONFLICT(id) DO UPDATE SET` every column except `created_at`. -/
def upsertCampaignRow (rows : List CampaignRow) (r : CampaignRow) :
    List CampaignRow :=
  match rows with
  | [] => [r]
  | r₁ :: t =>
      if r₁.id = r.id then { r with created_at := r₁.created_at } :: t
      else r₁ :: upsertCampaignRow t r

/-- The stage-result upsert of `CampaignStore._save_stage_result`:
`INSERT ... ON CONFLICT(campaign_id, stage) DO UPDATE SET artifact, approved,
approved_at, inputs_hash` (`created_at` keeps its original value). -/
def upsertStageRow (rows : List StageRow) (r : StageRow) : List StageRow :=
  match rows with
  | [] => [r]
  | r₁ :: t =>
      if r₁.campaign_id = r.campaign_id ∧ r₁.stage = r.stage then
        { r with created_at := r₁.created_at } :: t
      else r₁ :: upsertStageRow t r

/-- The `stage_results` row written by `CampaignStore._save_stage_result`:
keyed by `result.stage.value`, artifact as its JSON dump, `approved` stored
as the integer `1 if result.approved else 0`, and `datetime.now()` as the
row's `created_at`. -/
def stageRowOf (campaign_id : String) (result : StageResult) (now : Nat) :
    StageRow :=
  ⟨campaign_id, result.stage.value, result.artifact,
    if result.approved then 1 else 0, result.approved_at, result.inputs_hash,
    now⟩

/-- `CampaignStore.save`: upsert the campaign row, then upsert one
`stage_results` row per entry of `campaign.results` (in dict order). -/
def CampaignStore.save (db : Db) (campaign : Campaign) (now : Nat) : Db :=
  ⟨upsertCampaignRow db.campaigns
      ⟨campaign.id, campaign.brief, campaign.brand_name, campaign.template,
        campaign.current_stage.value, campaign.total_tokens,
        campaign.total_cost_usd, campaign.created_at, campaign.updated_at⟩,
    campaign.results.foldl
      (fun rows kv => upsertStageRow rows (stageRowOf campaign.id kv.2 now))
      db.stage_results⟩

/-- Rebuild the `results` dict from the selected `stage_results` rows:
each row contributes `results[r["stage"]] = StageResult(stage=Stage(r["stage"]),
artifact=json.loads(...), approved=bool(r["approved"]), approved_at=...,
inputs_hash=...)`; `Stage(...)` raising on an unknown name is embedded as
`none`. -/
def buildResults : List StageRow → Option (List (String × StageResult))
  | [] => some []
  | r :: t =>
      match stageOfValue r.stage, buildResults t with
      | some s, some rest =>
          some ((r.stage,
            ⟨s, r.artifact, decide (r.approved ≠ 0), r.approved_at,
              r.inputs_hash⟩) :: rest)
      | _, _ => none

/-- `CampaignStore.load`: select the campaign row by id (`none` when absent),
select its stage rows in table order, rebuild the `Campaign` aggregate. -/
def CampaignStore.load (db : Db) (campaign_id : String) : Option Campaign :=
  match db.campaigns.find? (fun r => r.id == campaign_id) with
  | none => none
  | some row =>
      match
        buildResults (db.stage_results.filter
          (fun r => r.campaign_id == campaign_id)),
        stageOfValue row.current_stage with
      | some results, some stage =>
          some ⟨row.id, row.brief, row.brand_name, row.template, stage,
            results, row.created_at, row.updated_at, row.total_tokens,
            row.total_cost_usd⟩
      | _, _ => none

/-! ## Concrete sample values used by the closed claim instances -/

/-- A campaign value used as a concrete test input. -/
def sampleCampaign (stage : Stage) (results : List (String × StageResult)) :
    Campaign :=
  ⟨"c1", "Launch X", none, "product-launch", stage, results, 10, 20, 0, 0⟩

/-- The executor used by the concrete idempotency scenario. -/
def implC3 : ExecutorImpl := fun _ _ _ => Except.ok (Json.str "art")

/-- The campaign state after a first successful `run_stage` of the concrete
idempotency scenario. -/
def campaignC3 : Campaign :=
  (record_result (sampleCampaign Stage.RESEARCH []) Stage.RESEARCH
    (Json.str "art") false (some (compute_inputs_hash [])) 1).2

/-- The executor used by the concrete regenerate scenario. -/
def implC4 : ExecutorImpl := fun _ _ _ => Except.ok (Json.str "v1")

/-- The campaign state after the first `run_stage` of the concrete regenerate
scenario (artifact recorded, unapproved, with the fingerprint of `{}`). -/
def campaignC4 : Campaign :=
  (record_result (sampleCampaign Stage.RESEARCH []) Stage.RESEARCH
    (Json.str "v1") false (some (compute_inputs_hash [])) 1).2

/-- The campaign of the concrete save/load round-trip scenario: one approved
`RESEARCH` result with an object artifact and an inputs fingerprint. -/
def campaignC5 : Campaign :=
  ⟨"c1", "Launch X", some "Acme", "product-launch", Stage.STRATEGY,
    [("research",
      ⟨Stage.RESEARCH, Json.obj [("insights", Json.arr [Json.str "i1"])],
        true, some 5, some "h16"⟩)],
    1, 2, 7, 0⟩

/-! ## Supporting lemmas -/

theorem dictGet_dictSet_self {α : Type} (m : List (String × α)) (k : String)
    (v : α) : dictGet (dictSet m k v) k = some v := by
  induction m with
  | nil => simp [dictSet, dictGet]
  | cons hd t ih =>
      obtain ⟨k₁, v₁⟩ := hd
      by_cases h : k₁ = k
      · simp [dictSet, dictGet, h]
      · simp [dictSet, dictGet, h, ih]

theorem dictGet_dictSet_ne {α : Type} (m : List (String × α)) (k k' : String)
    (v : α) (h : k' ≠ k) : dictGet (dictSet m k v) k' = dictGet m k' := by
  induction m with
  | nil => simp [dictSet, dictGet, Ne.symm h]
  | cons hd t ih =>
      obtain ⟨k₁, v₁⟩ := hd
      by_cases hk : k₁ = k
      · subst hk
        simp [dictSet, dictGet, Ne.symm h]
      · simp [dictSet, dictGet, hk, ih]

/-- `advance` raises `StageTransitionError(current, target)` — and leaves the
campaign untouched — whenever the current stage is not `INTAKE`, has a
successor, and its result is missing or unapproved. -/
theorem advance_err_of (c : Campaign) (now : Nat) (t : Stage)
    (hne : c.current_stage ≠ Stage.INTAKE)
    (hnext : next_stage c.current_stage = some t)
    (hres : ∀ r, get_stage_result c c.current_stage = some r →
      r.approved = false) :
    advance c now = (Except.error ⟨c.current_stage, t⟩, c) := by
  cases hr : get_stage_result c c.current_stage with
  | none => simp [advance, hnext, hne, hr]
  | some r => simp [advance, hnext, hne, hr, hres r hr]

/-- `next_stage` is `some` away from `DONE`. -/
theorem next_stage_isSome_of_ne_done (S : Stage) (h : S ≠ Stage.DONE) :
    ∃ t, next_stage S = some t := by
  cases S <;> first | exact absurd rfl h | exact ⟨_, rfl⟩

/-- Away from `DONE` the successor exists and the linear transition table
allows exactly that step. -/
theorem next_stage_can_transition (S : Stage) (h : S ≠ Stage.DONE) :
    ∃ T, next_stage S = some T ∧ can_transition S T = true := by
  cases S <;> first | exact absurd rfl h | exact ⟨_, rfl, rfl⟩

/-- `advance` succeeds and moves to the target when the target is the legal
successor and the current stage is `INTAKE` or has an approved result. -/
theorem advance_ok_of (c : Campaign) (now : Nat) (T : Stage)
    (hnext : next_stage c.current_stage = some T)
    (htrans : can_transition c.current_stage T = true)
    (happ : c.current_stage = Stage.INTAKE ∨
      ∃ r, get_stage_result c c.current_stage = some r ∧ r.approved = true) :
    advance c now =
      (Except.ok (some T), { c with current_stage := T, updated_at := now }) := by
  by_cases hin : c.current_stage = Stage.INTAKE
  · rw [hin] at hnext htrans
    simp [advance, hin, hnext, htrans, validate_transition]
  · rcases happ with hin' | ⟨r, hr, hra⟩
    · exact absurd hin' hin
    · simp [advance, hnext, hin, hr, hra, validate_transition, htrans]

theorem dumpsFields_eq_map (l : List (String × Json)) :
    dumpsFields l = l.map (fun kv => (kv.1, Json.dumps kv.2)) := by
  induction l with
  | nil => simp [dumpsFields]
  | cons hd t ih =>
      obtain ⟨k, v⟩ := hd
      simp [dumpsFields, ih]

/-- Sorting key-distinct pairs by key is invariant under permutation. -/
theorem sortByKey_perm_eq (l₁ l₂ : List (String × String))
    (hp : l₁.Perm l₂) (hnd : (l₁.map Prod.fst).Nodup) :
    sortByKey l₁ = sortByKey l₂ := by
  haveI : IsTotal (String × String) (fun a b => a.1 ≤ b.1) :=
    ⟨fun a b => le_total a.1 b.1⟩
  haveI : IsTrans (String × String) (fun a b => a.1 ≤ b.1) :=
    ⟨fun a b c hab hbc => le_trans hab hbc⟩
  have hr : ∀ m : List (String × String),
      (sortByKey m).Pairwise (fun a b => a.1 ≤ b.1) := fun m =>
    List.sorted_insertionSort _ m
  have hps₁ : (sortByKey l₁).Perm l₁ := List.perm_insertionSort _ l₁
  have hps₂ : (sortByKey l₂).Perm l₂ := List.perm_insertionSort _ l₂
  have hnd₁ : ((sortByKey l₁).map Prod.fst).Nodup :=
    ((hps₁.map Prod.fst).nodup_iff).mpr hnd
  have hnd₂ : ((sortByKey l₂).map Prod.fst).Nodup :=
    ((hps₂.map Prod.fst).nodup_iff).mpr ((hp.map Prod.fst).nodup_iff.mp hnd)
  have hstrict : ∀ m : List (String × String),
      (m.map Prod.fst).Nodup → m.Pairwise (fun a b => a.1 ≤ b.1) →
      m.Pairwise (fun a b => a.1 < b.1) := by
    intro m hmnd hms
    have hne : m.Pairwise (fun a b => a.1 ≠ b.1) := List.pairwise_map.mp hmnd
    exact (hms.and hne).imp (fun h => lt_of_le_of_ne h.1 h.2)
  haveI : IsAntisymm (String × String) (fun a b => a.1 < b.1) :=
    ⟨fun a b h₁ h₂ => absurd (lt_trans h₁ h₂) (lt_irrefl _)⟩
  exact List.eq_of_perm_of_sorted ((hps₁.trans hp).trans hps₂.symm)
    (hstrict _ hnd₁ (hr l₁)) (hstrict _ hnd₂ (hr l₂))

theorem stageOfValue_value (s : Stage) : stageOfValue s.value = some s := by
  cases s <;> rfl

theorem decode_approved (b : Bool) :
    decide (((if b then 1 else 0) : Int) ≠ 0) = b := by
  cases b <;> rfl

/-- Upserting a campaign row whose id is not in the table appends it. -/
theorem upsertCampaignRow_fresh (rows : List CampaignRow) (r : CampaignRow)
    (h : ∀ r₁ ∈ rows, r₁.id ≠ r.id) : upsertCampaignRow rows r = rows ++ [r] := by
  induction rows with
  | nil => rfl
  | cons r₁ t ih =>
      have h₁ : r₁.id ≠ r.id := h r₁ (List.mem_cons_self r₁ t)
      simp [upsertCampaignRow, h₁,
        ih (fun x hx => h x (List.mem_cons_of_mem _ hx))]

/-- Upserting a stage row whose `(campaign_id, stage)` key is not in the table
appends it. -/
theorem upsertStageRow_fresh (rows : List StageRow) (r : StageRow)
    (h : ∀ r₁ ∈ rows, ¬(r₁.campaign_id = r.campaign_id ∧ r₁.stage = r.stage)) :
    upsertStageRow rows r = rows ++ [r] := by
  induction rows with
  | nil => rfl
  | cons r₁ t ih =>
      have h₁ := h r₁ (List.mem_cons_self r₁ t)
      simp [upsertStageRow, h₁,
        ih (fun x hx => h x (List.mem_cons_of_mem _ hx))]

/-- Saving the results of a campaign whose id has no stage rows in the table
appends one serialised row per result, in order, when the results have
pairwise-distinct stage values. -/
theorem fold_upsertStageRow_fresh (cid : String) (now : Nat) :
    ∀ (todo : List (String × StageResult)) (rows : List StageRow),
    (∀ r ∈ rows, ∀ kv ∈ todo,
      ¬(r.campaign_id = cid ∧ r.stage = kv.2.stage.value)) →
    (todo.map (fun kv => kv.2.stage.value)).Nodup →
    todo.foldl (fun rws kv => upsertStageRow rws (stageRowOf cid kv.2 now))
        rows =
      rows ++ todo.map (fun kv => stageRowOf cid kv.2 now) := by
  intro todo
  induction todo with
  | nil => intro rows _ _; simp
  | cons kv rest ih =>
      intro rows hfresh hnd
      simp only [List.foldl_cons, List.map_cons]
      rw [upsertStageRow_fresh rows (stageRowOf cid kv.2 now)
        (fun r₁ hr₁ => hfresh r₁ hr₁ kv (List.mem_cons_self _ _))]
      rw [ih (rows ++ [stageRowOf cid kv.2 now]) ?hall ?hnd2]
      · simp
      case hall =>
          intro r hr kv' hkv'
          rcases List.mem_append.mp hr with hro | hnew
          · exact hfresh r hro kv' (List.mem_cons_of_mem _ hkv')
          · have hrw : r = stageRowOf cid kv.2 now := by simpa using hnew
            subst hrw
            rintro ⟨_, hst⟩
            have hhead := (List.nodup_cons.mp hnd).1
            have hmem : kv.2.stage.value ∈
                List.map (fun kv => kv.2.stage.value) rest := by
              rw [show kv.2.stage.value = kv'.2.stage.value from hst]
              exact List.mem_map_of_mem _ hkv'
            exact hhead hmem
      case hnd2 => exact (List.nodup_cons.mp hnd).2

/-- Filtering by a campaign id that owns none of the rows yields nothing. -/
theorem filter_not_mine (cid : String) (rows : List StageRow)
    (h : ∀ r ∈ rows, r.campaign_id ≠ cid) :
    rows.filter (fun r => r.campaign_id == cid) = [] := by
  induction rows with
  | nil => rfl
  | cons r t ih =>
      simp [List.filter_cons, h r (List.mem_cons_self r t),
        ih (fun x hx => h x (List.mem_cons_of_mem _ hx))]

/-- Filtering by a campaign id that owns every row keeps them all. -/
theorem filter_all_mine (cid : String) (rows : List StageRow)
    (h : ∀ r ∈ rows, r.campaign_id = cid) :
    rows.filter (fun r => r.campaign_id == cid) = rows := by
  induction rows with
  | nil => rfl
  | cons r t ih =>
      simp [List.filter_cons, h r (List.mem_cons_self r t),
        ih (fun x hx => h x (List.mem_cons_of_mem _ hx))]

/-- Finding by id in a table whose other rows all have different ids returns
the appended row. -/
theorem find_appended_campaign (rows : List CampaignRow) (r : CampaignRow)
    (cid : String) (hr : r.id = cid) (h : ∀ r₁ ∈ rows, r₁.id ≠ cid) :
    (rows ++ [r]).find? (fun x => x.id == cid) = some r := by
  induction rows with
  | nil => simp [List.find?, hr]
  | cons r₁ t ih =>
      have h₁ : (r₁.id == cid) = false := by
        simp [h r₁ (List.mem_cons_self r₁ t)]
      simp [List.find?, h₁, ih (fun x hx => h x (List.mem_cons_of_mem _ hx))]

/-- Rebuilding the rows saved from a coherent results dict restores the dict
exactly. -/
theorem buildResults_map (cid : String) (now : Nat) :
    ∀ l : List (String × StageResult),
    (∀ kv ∈ l, kv.1 = kv.2.stage.value) →
    buildResults (l.map (fun kv => stageRowOf cid kv.2 now)) = some l := by
  intro l
  induction l with
  | nil => intro _; rfl
  | cons kv t ih =>
      intro hk
      have hk₁ : kv.1 = kv.2.stage.value := hk kv (List.mem_cons_self _ _)
      simp only [List.map_cons, buildResults,
        ih (fun x hx => hk x (List.mem_cons_of_mem _ hx))]
      simp only [stageRowOf, stageOfValue_value kv.2.stage, decode_approved]
      rw [← hk₁]

/-! ## Claim theorems -/

/-- C7: for every stage other than `DONE`, `next_stage` returns exactly one
successor; `next_stage DONE` is `none`; and iterating `next_stage` from
`INTAKE` reaches `DONE` after six steps and returns `none` on the seventh. -/
theorem next_stage_chain :
    (∀ S : Stage, (next_stage S).isSome = !(S == Stage.DONE)) ∧
    next_stage Stage.DONE = none ∧
    (fun s => s.bind next_stage)^[6] (some Stage.INTAKE) = some Stage.DONE ∧
    (fun s => s.bind next_stage)^[7] (some Stage.INTAKE) = none := by
  decide

/-- C2: from any stage that is neither `INTAKE` nor `DONE`, when the current
stage's result is missing or unapproved, `advance` fails with a
`StageTransitionError` and the returned (post-call) campaign is the input
campaign itself — in particular `current_stage` is unchanged. -/
theorem advance_unapproved_preserves_state (c : Campaign) (now : Nat)
    (h₁ : c.current_stage ≠ Stage.INTAKE) (h₂ : c.current_stage ≠ Stage.DONE)
    (h₃ : ∀ r, get_stage_result c c.current_stage = some r →
      r.approved = false) :
    ∃ t, advance c now = (Except.error ⟨c.current_stage, t⟩, c) ∧
      (advance c now).2.current_stage = c.current_stage := by
  obtain ⟨t, hnext⟩ := next_stage_isSome_of_ne_done c.current_stage h₂
  refine ⟨t, advance_err_of c now t h₁ hnext h₃, ?_⟩
  rw [advance_err_of c now t h₁ hnext h₃]

theorem advance_unapproved_preserves_state_witness :
    ∃ t, advance (sampleCampaign Stage.RESEARCH []) 5 =
        (Except.error ⟨(sampleCampaign Stage.RESEARCH []).current_stage, t⟩,
          sampleCampaign Stage.RESEARCH []) ∧
      (advance (sampleCampaign Stage.RESEARCH []) 5).2.current_stage =
        (sampleCampaign Stage.RESEARCH []).current_stage :=
  advance_unapproved_preserves_state (sampleCampaign Stage.RESEARCH []) 5
    (by decide) (by decide) (fun r h => nomatch h)

/-- C1: on a campaign at `RESEARCH` with no stage result, `advance` does raise
`StageTransitionError`, but the exception's message is the invalid-transition
text `"Cannot transition from research to strategy. Allowed: strategy"` and
does not contain `"not approved"` — contradicting the inline comment
`# Will show "not approved" in error` at the raise site
(`controller.py` line 142). -/
theorem advance_unapproved_message_lacks_not_approved :
    (advance (sampleCampaign Stage.RESEARCH []) 5).1 =
      Except.error ⟨Stage.RESEARCH, Stage.STRATEGY⟩ ∧
    StageTransitionErr.message ⟨Stage.RESEARCH, Stage.STRATEGY⟩ =
      "Cannot transition from research to strategy. Allowed: strategy" ∧
    ¬ List.IsInfix "not approved".data
        (StageTransitionErr.message ⟨Stage.RESEARCH, Stage.STRATEGY⟩).data := by
  refine ⟨rfl, rfl, by decide⟩

/-- C6: when the dispatched execution fails with a non-retryable
`StageExecutionError` (here: the missing-executor path for `DONE`, raised with
`retryable=False`), `run_stage` surfaces a `StageExecutionError` whose
`retryable` is `True` — the `except` handler re-wraps every exception as
`StageExecutionError(stage, str(e))`, taking the constructor default
`retryable=True` and discarding the flag the executor set (it also
double-wraps the message). -/
theorem run_stage_discards_executor_retryable :
    run_stage (fun _ _ _ => Except.error (PyExn.other "boom"))
        (sampleCampaign Stage.DONE []) Stage.DONE [] 7 =
      Except.error ⟨Stage.DONE,
        "Stage done failed: Stage done failed: No executor for stage done",
        true⟩ ∧
    (StageExecutionError Stage.DONE "No executor for stage done"
        false).retryable = false :=
  ⟨rfl, rfl⟩

/-- C8: `compute_inputs_hash` is a deterministic function of the canonical
(key-sorted) serialisation: two input dicts holding the same key-value pairs
in different key order produce the same fingerprint, and repeated calls on the
same input produce the same fingerprint. -/
theorem compute_inputs_hash_canonical (l₁ l₂ : List (String × Json))
    (hp : l₁.Perm l₂) (hnd : (l₁.map Prod.fst).Nodup) :
    compute_inputs_hash l₁ = compute_inputs_hash l₂ ∧
    ∀ l : List (String × Json), compute_inputs_hash l = compute_inputs_hash l := by
  refine ⟨?_, fun _ => rfl⟩
  have key : sortByKey (dumpsFields l₁) = sortByKey (dumpsFields l₂) := by
    apply sortByKey_perm_eq
    · rw [dumpsFields_eq_map, dumpsFields_eq_map]
      exact hp.map _
    · rw [dumpsFields_eq_map, List.map_map]
      exact hnd
  simp only [compute_inputs_hash, Json.dumps, key]

theorem compute_inputs_hash_canonical_witness :
    compute_inputs_hash [("b", Json.num 1), ("a", Json.num 2)] =
      compute_inputs_hash [("a", Json.num 2), ("b", Json.num 1)] :=
  (compute_inputs_hash_canonical _ _ (List.Perm.swap _ _ _) (by decide)).1

/-- C3: if `run_stage` succeeds once, running it again from the resulting
state with identical inputs replays the recorded artifact: the second call
returns the artifact and campaign of the first call, and across the two calls
the executor is dispatched at most once. -/
theorem run_stage_idempotent_replay (impl : ExecutorImpl) (c : Campaign)
    (stage : Stage) (inputs : List (String × Json)) (now₁ now₂ : Nat)
    (a₁ : Json) (c₁ : Campaign)
    (hrun : run_stage impl c stage inputs now₁ = Except.ok (a₁, c₁)) :
    run_stage impl c₁ stage inputs now₂ = Except.ok (a₁, c₁) ∧
    run_stage_invokes c stage inputs + run_stage_invokes c₁ stage inputs ≤ 1 := by
  by_cases hi : is_idempotent c stage inputs
  · cases hres : get_stage_result c stage with
    | none => simp [is_idempotent, hres] at hi
    | some r =>
        simp [run_stage, hi, hres] at hrun
        obtain ⟨ha, hc⟩ := hrun
        subst ha
        subst hc
        constructor
        · simp [run_stage, hi, hres]
        · simp [run_stage_invokes, hi, hres]
  · cases hex : _execute_stage impl c stage inputs with
    | error e => simp [run_stage, hi, hex] at hrun
    | ok artifact =>
        simp [run_stage, hi, hex] at hrun
        obtain ⟨ha, hc⟩ := hrun
        subst ha
        have hres1 : get_stage_result c₁ stage =
            some ⟨stage, artifact, false, none,
              some (compute_inputs_hash inputs)⟩ := by
          rw [← hc]
          simp [record_result, get_stage_result, dictGet_dictSet_self]
        have hi1 : is_idempotent c₁ stage inputs = true := by
          simp [is_idempotent, hres1]
        constructor
        · simp [run_stage, hi1, hres1]
        · simp [run_stage_invokes, hi, hi1, hres1]

theorem run_stage_idempotent_replay_witness :
    run_stage implC3 campaignC3 Stage.RESEARCH [] 2 =
      Except.ok (Json.str "art", campaignC3) ∧
    run_stage_invokes (sampleCampaign Stage.RESEARCH []) Stage.RESEARCH [] +
      run_stage_invokes campaignC3 Stage.RESEARCH [] ≤ 1 :=
  run_stage_idempotent_replay implC3 (sampleCampaign Stage.RESEARCH [])
    Stage.RESEARCH [] 1 2 (Json.str "art") campaignC3 rfl

/-- C4: after a stage has produced and recorded an artifact, the
`GateAction.REGENERATE` branch leaves the campaign unchanged — the stage's
`StageResult` is NOT discarded — so the next loop iteration's
`run_stage(current, {})` finds a matching `inputs_hash`, performs zero
executor dispatches, and returns the cached artifact instead of a fresh
one.  This contradicts the branch's own comment
`# Clear result and retry (next loop iteration)`
(`archive/agentcy_v2/cli.py` line 129). -/
theorem regenerate_replays_cached_result :
    run_stage implC4 (sampleCampaign Stage.RESEARCH []) Stage.RESEARCH [] 1 =
      Except.ok (Json.str "v1", campaignC4) ∧
    regenerate_branch campaignC4 = campaignC4 ∧
    get_stage_result (regenerate_branch campaignC4) Stage.RESEARCH =
      some ⟨Stage.RESEARCH, Json.str "v1", false, none,
        some (compute_inputs_hash [])⟩ ∧
    run_stage implC4 (regenerate_branch campaignC4) Stage.RESEARCH [] 2 =
      Except.ok (Json.str "v1", campaignC4) ∧
    run_stage_invokes (regenerate_branch campaignC4) Stage.RESEARCH [] = 0 :=
  ⟨rfl, rfl, rfl, rfl, rfl⟩

/-- C9: from any non-`DONE` stage `S`, `record_result S a` then
`approve_stage S` then `advance` moves `current_stage` to exactly the stage
`next_stage S` returns, and `updated_at` takes the three successive clock
values, so it strictly increases across the sequence. -/
theorem record_approve_advance_moves_to_next (c : Campaign) (S : Stage)
    (a : Json) (t₁ t₂ t₃ : Nat)
    (hS : c.current_stage = S) (hD : S ≠ Stage.DONE)
    (h₁₂ : t₁ < t₂) (h₂₃ : t₂ < t₃) :
    ∃ T c₃,
      next_stage S = some T ∧
      advance (approve_stage (record_result c S a false none t₁).2 S t₂).2 t₃ =
        (Except.ok (some T), c₃) ∧
      c₃.current_stage = T ∧
      (record_result c S a false none t₁).2.updated_at = t₁ ∧
      (approve_stage (record_result c S a false none t₁).2 S t₂).2.updated_at
        = t₂ ∧
      c₃.updated_at = t₃ ∧
      (record_result c S a false none t₁).2.updated_at <
        (approve_stage (record_result c S a false none t₁).2 S t₂).2.updated_at ∧
      (approve_stage (record_result c S a false none t₁).2 S t₂).2.updated_at <
        c₃.updated_at := by
  obtain ⟨T, hnext, htrans⟩ := next_stage_can_transition S hD
  have hres1 : get_stage_result (record_result c S a false none t₁).2 S =
      some ⟨S, a, false, none, none⟩ := by
    simp [record_result, get_stage_result, dictGet_dictSet_self]
  have hres2 : get_stage_result
      (approve_stage (record_result c S a false none t₁).2 S t₂).2 S =
      some ⟨S, a, true, some t₂, none⟩ := by
    simp only [approve_stage, hres1]
    simp [get_stage_result, dictGet_dictSet_self]
  have hcur2 :
      (approve_stage (record_result c S a false none t₁).2 S t₂).2.current_stage
        = S := by
    simp only [approve_stage, hres1]
    simp [record_result, hS]
  have hup2 :
      (approve_stage (record_result c S a false none t₁).2 S t₂).2.updated_at
        = t₂ := by
    simp only [approve_stage, hres1]
  have hadv := advance_ok_of
    (approve_stage (record_result c S a false none t₁).2 S t₂).2 t₃ T
    (by rw [hcur2]; exact hnext) (by rw [hcur2]; exact htrans)
    (Or.inr ⟨⟨S, a, true, some t₂, none⟩, by rw [hcur2]; exact hres2, rfl⟩)
  refine ⟨T, _, hnext, hadv, rfl, rfl, hup2, rfl, ?_, ?_⟩
  · rw [hup2]; exact h₁₂
  · rw [hup2]; exact h₂₃

theorem record_approve_advance_moves_to_next_witness :
    ∃ T c₃,
      next_stage Stage.RESEARCH = some T ∧
      advance (approve_stage (record_result (sampleCampaign Stage.RESEARCH [])
          Stage.RESEARCH (Json.str "x") false none 1).2 Stage.RESEARCH 2).2 3 =
        (Except.ok (some T), c₃) ∧
      c₃.current_stage = T ∧
      (record_result (sampleCampaign Stage.RESEARCH []) Stage.RESEARCH
          (Json.str "x") false none 1).2.updated_at = 1 ∧
      (approve_stage (record_result (sampleCampaign Stage.RESEARCH [])
          Stage.RESEARCH (Json.str "x") false none 1).2 Stage.RESEARCH
          2).2.updated_at = 2 ∧
      c₃.updated_at = 3 ∧
      (record_result (sampleCampaign Stage.RESEARCH []) Stage.RESEARCH
          (Json.str "x") false none 1).2.updated_at <
        (approve_stage (record_result (sampleCampaign Stage.RESEARCH [])
          Stage.RESEARCH (Json.str "x") false none 1).2 Stage.RESEARCH
          2).2.updated_at ∧
      (approve_stage (record_result (sampleCampaign Stage.RESEARCH [])
          Stage.RESEARCH (Json.str "x") false none 1).2 Stage.RESEARCH
          2).2.updated_at < c₃.updated_at :=
  record_approve_advance_moves_to_next (sampleCampaign Stage.RESEARCH [])
    Stage.RESEARCH (Json.str "x") 1 2 3 rfl (by decide) (by decide) (by decide)

/-- C10: `record_result` changes only the given stage's results entry and
`updated_at`; `approve_stage` likewise; and `approve_stage` on a stage with no
result returns `None` and changes nothing at all. -/
theorem record_approve_frame (c : Campaign) (S : Stage) (a : Json)
    (app : Bool) (ih : Option String) (now : Nat) :
    ((record_result c S a app ih now).2.id = c.id ∧
     (record_result c S a app ih now).2.brief = c.brief ∧
     (record_result c S a app ih now).2.brand_name = c.brand_name ∧
     (record_result c S a app ih now).2.template = c.template ∧
     (record_result c S a app ih now).2.current_stage = c.current_stage ∧
     (record_result c S a app ih now).2.created_at = c.created_at ∧
     (record_result c S a app ih now).2.total_tokens = c.total_tokens ∧
     (record_result c S a app ih now).2.total_cost_usd = c.total_cost_usd ∧
     (record_result c S a app ih now).2.updated_at = now ∧
     (∀ k, k ≠ S.value →
       dictGet (record_result c S a app ih now).2.results k =
         dictGet c.results k)) ∧
    ((approve_stage c S now).2.id = c.id ∧
     (approve_stage c S now).2.brief = c.brief ∧
     (approve_stage c S now).2.brand_name = c.brand_name ∧
     (approve_stage c S now).2.template = c.template ∧
     (approve_stage c S now).2.current_stage = c.current_stage ∧
     (approve_stage c S now).2.created_at = c.created_at ∧
     (approve_stage c S now).2.total_tokens = c.total_tokens ∧
     (approve_stage c S now).2.total_cost_usd = c.total_cost_usd ∧
     (∀ k, k ≠ S.value →
       dictGet (approve_stage c S now).2.results k = dictGet c.results k)) ∧
    (get_stage_result c S = none → approve_stage c S now = (none, c)) := by
  refine ⟨?_, ?_, ?_⟩
  · simp only [record_result]
    refine ⟨trivial, trivial, trivial, trivial, trivial, trivial, trivial,
      trivial, trivial, ?_⟩
    intro k hk
    exact dictGet_dictSet_ne c.results S.value k _ hk
  · cases hres : get_stage_result c S with
    | none => simp [approve_stage, hres]
    | some r =>
        simp only [approve_stage, hres]
        refine ⟨trivial, trivial, trivial, trivial, trivial, trivial, trivial,
          trivial, ?_⟩
        intro k hk
        exact dictGet_dictSet_ne c.results S.value k _ hk
  · intro h
    simp [approve_stage, h]

theorem record_approve_frame_witness :
    dictGet ((record_result (sampleCampaign Stage.RESEARCH []) Stage.RESEARCH
        (Json.str "x") false none 3).2).results "strategy" =
      dictGet (sampleCampaign Stage.RESEARCH []).results "strategy" ∧
    approve_stage (sampleCampaign Stage.RESEARCH []) Stage.RESEARCH 3 =
      (none, sampleCampaign Stage.RESEARCH []) :=
  ⟨(record_approve_frame (sampleCampaign Stage.RESEARCH []) Stage.RESEARCH
      (Json.str "x") false none 3).1.2.2.2.2.2.2.2.2.2 "strategy" (by decide),
   (record_approve_frame (sampleCampaign Stage.RESEARCH []) Stage.RESEARCH
      (Json.str "x") false none 3).2.2 rfl⟩

/-- C5: `save` followed by `load` of the same id returns the campaign with
every field intact — id, brief, brand_name, template, current_stage,
created_at, updated_at, token/cost counters, and, for every stage result, its
artifact, approved flag, approved_at and inputs_hash.  The hypotheses state
the dict representation invariant (each results key is its result's stage
value, keys distinct) and that the store holds no prior rows under this
campaign's id. -/
theorem save_load_roundtrip (db : Db) (c : Campaign) (now : Nat)
    (hkeys : ∀ kv ∈ c.results, kv.1 = kv.2.stage.value)
    (hnodup : (c.results.map Prod.fst).Nodup)
    (hdbc : ∀ r ∈ db.campaigns, r.id ≠ c.id)
    (hdbr : ∀ r ∈ db.stage_results, r.campaign_id ≠ c.id) :
    CampaignStore.load (CampaignStore.save db c now) c.id = some c := by
  have hcamp : (CampaignStore.save db c now).campaigns =
      db.campaigns ++ [⟨c.id, c.brief, c.brand_name, c.template,
        c.current_stage.value, c.total_tokens, c.total_cost_usd,
        c.created_at, c.updated_at⟩] :=
    upsertCampaignRow_fresh _ _ hdbc
  have hnodupv : (c.results.map (fun kv => kv.2.stage.value)).Nodup := by
    have hmc : c.results.map Prod.fst =
        c.results.map (fun kv => kv.2.stage.value) :=
      List.map_congr_left hkeys
    rw [← hmc]
    exact hnodup
  have hrows : (CampaignStore.save db c now).stage_results =
      db.stage_results ++ c.results.map (fun kv => stageRowOf c.id kv.2 now) :=
    fold_upsertStageRow_fresh c.id now c.results db.stage_results
      (fun r hr kv _ hand => hdbr r hr hand.1) hnodupv
  have hfilter : ((CampaignStore.save db c now).stage_results).filter
      (fun r => r.campaign_id == c.id) =
      c.results.map (fun kv => stageRowOf c.id kv.2 now) := by
    rw [hrows, List.filter_append, filter_not_mine c.id db.stage_results hdbr,
      filter_all_mine c.id _ ?_, List.nil_append]
    intro r hr
    obtain ⟨kv, _, hrw⟩ := List.mem_map.mp hr
    rw [← hrw]
    rfl
  simp only [CampaignStore.load, hcamp,
    find_appended_campaign db.campaigns
      ⟨c.id, c.brief, c.brand_name, c.template, c.current_stage.value,
        c.total_tokens, c.total_cost_usd, c.created_at, c.updated_at⟩
      c.id rfl hdbc,
    hfilter, buildResults_map c.id now c.results hkeys, stageOfValue_value]

theorem save_load_roundtrip_witness :
    CampaignStore.load (CampaignStore.save ⟨[], []⟩ campaignC5 9)
      campaignC5.id = some campaignC5 :=
  save_load_roundtrip ⟨[], []⟩ campaignC5 9 (by decide) (by decide)
    (by simp) (by simp)
